import Mathlib

/-!
Verification development for the ffmpeg-io configuration-assembly layer
(`src/ffmpegio/configure.py`).  The Python functions are shallowly embedded:
option dictionaries become insertion-ordered association lists with Python
`dict` semantics, Python `None` becomes `Option.none` at the value level,
exceptions become `Except.error`, and external collaborators that are not
part of the analysed sources (the probe adapter, the filtergraph parser,
the pixel/sample-format catalogues) are either modelled from the
specification or taken as explicit oracle parameters.
-/

namespace FfmpegIO

/-! ## Decimal rendering of integers (model of Python `str(int)` for naturals)

The embedding needs a concrete decimal printer for f-strings such as
`f"{i}:{media_type[0]}:{j}"` and `f"out{out_n}"`.  We define one with explicit
fuel (structural recursion, hence kernel-reducible) and prove it injective. -/

def decDigitsAux : Nat → Nat → List Char
  | 0, _ => []
  | fuel + 1, n => if n = 0 then [] else decDigitsAux fuel (n / 10) ++ [Nat.digitChar (n % 10)]

/-- Decimal rendering of a natural number, the model of Python `str(i)`. -/
def natToDec (n : Nat) : String := if n = 0 then "0" else ⟨decDigitsAux (n + 1) n⟩

/-- Value of a digit list read most-significant first. -/
def decVal (cs : List Char) : Nat := cs.foldl (fun a c => a * 10 + (c.toNat - '0'.toNat)) 0

theorem decVal_append (a b : List Char) :
    decVal (a ++ b) = b.foldl (fun a c => a * 10 + (c.toNat - '0'.toNat)) (decVal a) := by
  simp [decVal, List.foldl_append]

theorem digitChar_val {d : Nat} (hd : d < 10) :
    (Nat.digitChar d).toNat - '0'.toNat = d := by
  interval_cases d <;> rfl

theorem decDigitsAux_val : ∀ fuel n, n < fuel → decVal (decDigitsAux fuel n) = n := by
  intro fuel
  induction fuel with
  | zero => intro n h; omega
  | succ f ih =>
    intro n h
    by_cases h0 : n = 0
    · simp [decDigitsAux, h0, decVal]
    · have hdiv : n / 10 < f := by
        have h1 : n / 10 < n := Nat.div_lt_self (Nat.pos_of_ne_zero h0) (by omega)
        omega
      have hrec := ih (n / 10) hdiv
      simp only [decDigitsAux, h0, if_false]
      rw [decVal_append]
      simp only [List.foldl_cons, List.foldl_nil]
      rw [hrec, digitChar_val (Nat.mod_lt n (by omega))]
      omega

theorem decVal_natToDec (n : Nat) : decVal (natToDec n).data = n := by
  by_cases h0 : n = 0
  · simp [natToDec, h0, decVal]
  · simp only [natToDec, h0, if_false]
    exact decDigitsAux_val (n + 1) n (Nat.lt_succ_self n)

theorem natToDec_injective : Function.Injective natToDec := by
  intro m n h
  have := decVal_natToDec m
  rw [h, decVal_natToDec] at this
  omega

theorem decDigitsAux_digits : ∀ fuel n c, c ∈ decDigitsAux fuel n → c.isDigit = true := by
  intro fuel
  induction fuel with
  | zero => intro n c h; simp [decDigitsAux] at h
  | succ f ih =>
    intro n c h
    by_cases h0 : n = 0
    · simp [decDigitsAux, h0] at h
    · simp only [decDigitsAux, h0, if_false, List.mem_append, List.mem_singleton] at h
      rcases h with h | h
      · exact ih _ _ h
      · subst h
        have : n % 10 < 10 := Nat.mod_lt n (by omega)
        revert this
        generalize n % 10 = d
        intro hd
        interval_cases d <;> decide

theorem natToDec_digits (n : Nat) : ∀ c ∈ (natToDec n).data, c.isDigit = true := by
  intro c hc
  by_cases h0 : n = 0
  · simp [natToDec, h0] at hc
    subst hc; decide
  · simp only [natToDec, h0, if_false] at hc
    exact decDigitsAux_digits _ _ _ hc

theorem natToDec_ne_nil (n : Nat) : (natToDec n).data ≠ [] := by
  intro h
  have := decVal_natToDec n
  by_cases h0 : n = 0
  · simp [natToDec, h0] at h
  · simp only [natToDec, h0, if_false] at h this
    rw [h] at this
    simp [decVal] at this
    omega

theorem colon_not_digit : (':' : Char).isDigit = false := by decide

/-! Structural (kernel-reducible) models of the Python string primitives the
embedding uses. -/

/-- Structural list-prefix test. -/
def listPrefix : List Char → List Char → Bool
  | [], _ => true
  | _, [] => false
  | a :: as, b :: bs => a = b && listPrefix as bs

/-- Python `s.startswith(pre)`. -/
def strStartsWith (s pre : String) : Bool := listPrefix pre.data s.data

/-- Python `s.endswith(suf)`. -/
def strEndsWith (s suf : String) : Bool := listPrefix suf.data.reverse s.data.reverse

/-- The last character of a nonempty string (Python `s[-1]`; every use below
is guarded by a nonemptiness test, so the default is never consulted). -/
def lastChar : List Char → Char
  | [] => ' '
  | [c] => c
  | _ :: c :: rest => lastChar (c :: rest)

/-- Python `s[k:]`. -/
def strDrop (s : String) (k : Nat) : String := ⟨s.data.drop k⟩

/-- Python `s[:-k]`. -/
def strDropRight (s : String) (k : Nat) : String := ⟨s.data.take (s.data.length - k)⟩

/-- Python `int(s)` on a nonempty all-digit string, `None` otherwise (the
shape of the integers accepted by the stream-specifier grammar). -/
def strToNat? (s : String) : Option Nat :=
  if !s.data.isEmpty && s.data.all Char.isDigit then some (decVal s.data) else none

/-- Python `s.split(":")`. -/
def splitColon : List Char → List (List Char)
  | [] => [[]]
  | c :: rest =>
    if c = ':' then [] :: splitColon rest
    else
      match splitColon rest with
      | [] => [[c]]
      | g :: gs => (c :: g) :: gs

/-- Join with `":"` (inverse of `splitColon`). -/
def joinColon : List (List Char) → List Char
  | [] => []
  | [g] => g
  | g :: gs => g ++ ':' :: joinColon gs

/-- Splitting a colon-separated concatenation whose left parts are digit-only:
if `a ++ ':' :: r = a' ++ ':' :: r'` with `a`, `a'` colon-free, the parts agree. -/
theorem colon_split : ∀ (a a' r r' : List Char),
    (∀ c ∈ a, c.isDigit = true) → (∀ c ∈ a', c.isDigit = true) →
    a ++ ':' :: r = a' ++ ':' :: r' → a = a' ∧ r = r' := by
  intro a
  induction a with
  | nil =>
    intro a' r r' _ ha' h
    cases a' with
    | nil => simpa using h
    | cons x xs =>
      simp only [List.nil_append, List.cons_append, List.cons.injEq] at h
      have hx := ha' x (by simp)
      rw [← h.1] at hx
      rw [colon_not_digit] at hx
      exact absurd hx (by simp)
  | cons x xs ih =>
    intro a' r r' ha ha' h
    cases a' with
    | nil =>
      simp only [List.cons_append, List.nil_append, List.cons.injEq] at h
      have hx := ha x (by simp)
      rw [h.1, colon_not_digit] at hx
      exact absurd hx (by simp)
    | cons y ys =>
      simp only [List.cons_append, List.cons.injEq] at h
      obtain ⟨hxy, htail⟩ := h
      have := ih ys r r' (fun c hc => ha c (by simp [hc])) (fun c hc => ha' c (by simp [hc])) htail
      exact ⟨by simp [hxy, this.1], this.2⟩

/-! ## Data model

Python option dictionaries are insertion-ordered association lists from
option names to Python values; a stored value may itself be Python `None`
(represented by `Option.none` at the `PyObj` level), which `dict.get(k, None)`
cannot distinguish from an absent key. -/

/-- Media type (`MediaType = Literal["video", "audio"]` in `_typing`). -/
inductive MT where
  | audio
  | video
deriving DecidableEq, Repr

/-- Modelled from the spec: a filtergraph (`fgb.Graph`) is a set of chains plus
a label map from pads to external link labels; unconnected output-side pads are
the graph's output pads.  `analyze_fg_outputs` consumes only (a) the ordered
list of the graph's output pads with their optional labels and the media type
the pad emits, and (b) the list of the graph's input-pad labels, so the model
records exactly those.  A pad is identified by its index in the graph's own
output-pad order (the role of the `full_pad_index` triples in the source). -/
structure FGraph where
  outPads : List (Nat × Option String × Option MT)
  inLabels : List String
deriving DecidableEq, Repr

mutual

/-- A Python value stored in an FFmpeg option dictionary: scalars, the size
pair used by the `s` option, fractions, simple filter chains (`vf`/`af`
values), complex filtergraph lists (`filter_complex` values), and Python
lists (e.g. multi-valued `map` options). -/
inductive Val where
  | vint (n : Int)
  | vstr (s : String)
  | vbool (b : Bool)
  | vpair (a b : Int)
  | vfrac (a b : Int)
  | vchain (c : List VFNode)
  | vgraphs (gs : List FGraph)
  | vlist (l : List Val)

/-- A node of a simple per-output video filter chain.  The preset generators
(`filter_video_basic`, `remove_video_alpha`) live in `filtergraph.presets`,
outside the analysed sources; modelled from the spec, each preset fragment is
one abstract node carrying the arguments the preset was invoked with
(`remove_video_alpha` is the alpha-removal overlay fragment). -/
inductive VFNode where
  | removeAlpha (fill_color : Option Val)
  | basicVF (crop flip transpose square_pixels scale : Option Val)

end

/-- A Python object slot: `none` is Python `None`. -/
abbrev PyObj : Type := Option Val

/-- An insertion-ordered Python dictionary of FFmpeg options. -/
abbrev PyDict : Type := List (String × PyObj)

/-- `d[k]` lookup that returns the first binding, `none` when the key is
absent (Python dicts have unique keys, so first = only). -/
def lookupD {β : Type} : List (String × β) → String → Option β
  | [], _ => none
  | (k', v) :: rest, k => if k' = k then some v else lookupD rest k

/-- Python `d.get(k, None)`: collapses an absent key and a stored `None`. -/
def dictGet (d : PyDict) (k : String) : PyObj := (lookupD d k).getD none

/-- Python `k in d`. -/
def hasKey {β : Type} (d : List (String × β)) (k : String) : Bool := (lookupD d k).isSome

/-- Python `d[k] = v`: overwrite in place if the key exists, else append. -/
def dictSet {β : Type} : List (String × β) → String → β → List (String × β)
  | [], k, v => [(k, v)]
  | (k', v') :: rest, k, v => if k' = k then (k, v) :: rest else (k', v') :: dictSet rest k v

/-- Remove the binding of `k` (first occurrence) if present. -/
def dictErase {β : Type} : List (String × β) → String → List (String × β)
  | [], _ => []
  | (k', v') :: rest, k => if k' = k then rest else (k', v') :: dictErase rest k

/-- Python `d.pop(k, default)`: the value (or default) and the shrunk dict. -/
def dictPop (d : PyDict) (k : String) (dflt : PyObj) : PyObj × PyDict :=
  match lookupD d k with
  | some v => (v, dictErase d k)
  | none => (dflt, d)

/-- Python `{**a, **b}`: keys of `a` in order with `b`'s values winning,
then the keys of `b` not in `a`, in `b`'s order. -/
def dictMerge (a b : PyDict) : PyDict :=
  (a.map fun kv => (kv.1, (lookupD b kv.1).getD kv.2)) ++
    b.filter fun kv => !(hasKey a kv.1)

/-- Fold helper for `dictFromPairs`. -/
def dictFromPairs' {β : Type} (acc : List (String × β)) :
    List (String × β) → List (String × β)
  | [] => acc
  | (k, v) :: rest => dictFromPairs' (dictSet acc k v) rest

/-- Build a dict from a sequence of bindings (Python dict comprehension
semantics: a later duplicate key overwrites in place). -/
def dictFromPairs {β : Type} (l : List (String × β)) : List (String × β) :=
  dictFromPairs' [] l

/-- Python truthiness of an option value (`None`, `0`, `""`, empty
containers are falsy). -/
def truthy : PyObj → Bool
  | none => false
  | some (.vint n) => n != 0
  | some (.vstr s) => s != ""
  | some (.vbool b) => b
  | some (.vpair _ _) => true
  | some (.vfrac a _) => a != 0
  | some (.vchain c) => !c.isEmpty
  | some (.vgraphs gs) => !gs.isEmpty
  | some (.vlist l) => !l.isEmpty

/-- Python `v or s`. -/
def pyOr (v s : PyObj) : PyObj := if truthy v then v else s

/-- The FFmpeg argument dict (`FFmpegArgs` TypedDict): ordered inputs and
outputs, each a pair of an optional url (`none` when data is piped) and an
optional option dict (a `None` options slot is distinct from an empty dict),
plus the global option set. -/
structure FFmpegArgs where
  inputs : List (Option String × Option PyDict)
  outputs : List (Option String × Option PyDict)
  global_options : Option PyDict

/-- `configure.empty`: fresh argument dict with empty entries. -/
def empty (global_options : Option PyDict := none) : FFmpegArgs :=
  { inputs := [], outputs := [], global_options := some (global_options.getD []) }

/-! ## Option lookup: `configure.get_option` -/

/-- Option target, the `type` argument of `get_option`: the source accepts the
strings `"input"`, `"output"`, and anything starting with `"global"` (both
`"global"` and `"global_options"` are used by callers). -/
inductive OptTarget where
  | input
  | output
  | global
deriving DecidableEq, Repr

/-- The `while v is None and len(names): name = names.pop(); v = opts.get(name)`
loop of `get_option`, applied to the reversed name list (Python `pop()` takes
the last, i.e. most specific, name first). -/
def pop_lookup_rev (opts : PyDict) : List String → PyObj
  | [] => none
  | n :: rest =>
    match dictGet opts n with
    | some v => some v
    | none => pop_lookup_rev opts rest

/-- `configure.get_option`: look up a possibly stream-qualified option,
trying `name:type:index`, `name:type`, `name` in that order.  A `file_id`
beyond the file list raises `IndexError` in the source, embedded as
`Except.error`.  (The source's `entry is None` guard is dead for well-typed
argument dicts, whose entries are always pairs, and is not modelled.) -/
def get_option (ffmpeg_args : Option FFmpegArgs) (type : OptTarget) (name : String)
    (file_id : Nat := 0) (stream_type : Option String := none)
    (stream_id : Option Nat := none) : Except String PyObj :=
  match ffmpeg_args with
  | none => .ok none
  | some args =>
    match type with
    | .global =>
      match args.global_options with
      | none => .ok none
      | some opts => .ok (pop_lookup_rev opts [name])
    | _ =>
      let filelist := if type = OptTarget.input then args.inputs else args.outputs
      match filelist.get? file_id with
      | none => .error "IndexError"
      | some entry =>
        match entry.2 with
        | none => .ok none
        | some opts =>
          let names :=
            match stream_type, stream_id with
            | some st, some sid =>
              [name, name ++ ":" ++ st, name ++ ":" ++ st ++ ":" ++ natToDec sid]
            | some st, none => [name, name ++ ":" ++ st]
            | none, _ => [name]
          .ok (pop_lookup_rev opts names.reverse)

/-! ## `configure.add_url` -/

/-- The `type` argument of `add_url`: which file list to touch. -/
inductive UrlType where
  | input
  | output
deriving DecidableEq, Repr

/-- Read the file list selected by a `UrlType`. -/
def fileList (args : FFmpegArgs) : UrlType → List (Option String × Option PyDict)
  | .input => args.inputs
  | .output => args.outputs

/-- Replace the file list selected by a `UrlType`. -/
def setFileList (args : FFmpegArgs) : UrlType → List (Option String × Option PyDict) → FFmpegArgs
  | .input, l => { args with inputs := l }
  | .output, l => { args with outputs := l }

/-- `next((i for i in range(n) if filelist[i][0] == url), None)`: first index
whose url matches, together with its entry. -/
def findUrl : List (Option String × Option PyDict) → Option String →
    Option (Nat × (Option String × Option PyDict))
  | [], _ => none
  | e :: rest, url =>
    if e.1 = url then some (0, e)
    else (findUrl rest url).map fun p => (p.1 + 1, p.2)

/-- `configure.add_url`: add a new url to the input or output list, or (with
`update = True` and a matching existing url) merge `opts` into the existing
entry.  Returns the updated argument dict, the file index, and the entry at
that index.  Note the source appends `(url, {} if opts is None else {**opts})`
for a new entry: a `None` opts argument is stored as an *empty dict*. -/
def add_url (args : FFmpegArgs) (type : UrlType) (url : Option String)
    (opts : Option PyDict := none) (update : Bool := false) :
    FFmpegArgs × Nat × (Option String × Option PyDict) :=
  let filelist := fileList args type
  let n := filelist.length
  let found := if update then findUrl filelist url else none
  match found with
  | none =>
    let entry : Option String × Option PyDict :=
      (url, some (match opts with | none => [] | some o => o))
    (setFileList args type (filelist ++ [entry]), n, entry)
  | some (i, e) =>
    match opts with
    | none => (args, i, e)
    | some o =>
      let entry : Option String × Option PyDict :=
        (url, match e.2 with | none => some o | some d => some (dictMerge d o))
      (setFileList args type (filelist.set i entry), i, entry)

/-! ## `configure.analyze_fg_outputs` -/

/-- A reference to an output pad held in `out_labels`: the source stores the
`(filter, pad_index)` pair; the model records (graph index, pad index, the
media type the pad emits, i.e. what `filter.get_pad_media_type("output", idx)`
returns at the end). -/
abbrev OutPadRef : Type := Nat × Nat × Option MT

/-- `re.match(r"out(\d+)$", label)`: `out` followed by one or more digits. -/
def is_out_label (s : String) : Bool :=
  strStartsWith s "out" && !(strDrop s 3).data.isEmpty && (strDrop s 3).data.all Char.isDigit

/-- Python `i in d` where `i` is an `int` and `d` is a dict with `str` keys:
an `int` never equals a `str`, so the test is always false.  This mirrors the
source's `i not in out_labels` / `out_n not in out_labels` tests — `out_labels`
is keyed by the label *strings*, while the separately collected integer set
`out_indices` is never consulted. -/
def py_int_in_str_dict {β : Type} (_ : Nat) (_ : List (String × β)) : Bool := false

/-- `next(i for i in range(len(out_labels) + 1) if i not in out_labels)`. -/
def first_unused_int {β : Type} (labels : List (String × β)) : Nat :=
  (((List.range (labels.length + 1)).find? fun i => !py_int_in_str_dict i labels).getD 0)

/-- The `while True: out_n += 1; if out_n not in out_labels: break` loop.  The
loop always terminates within `labels.length + 2` probes (at most
`labels.length` candidate integers could be occupied even if the membership
test were real), so it is embedded as a bounded search; the `getD` default is
never reached. -/
def next_out_n {β : Type} (n : Nat) (labels : List (String × β)) : Nat :=
  ((((List.range (labels.length + 2)).map fun k => n + 1 + k).find? fun i =>
    !py_int_in_str_dict i labels).getD (n + 1))

/-- Modelled from the spec: `Graph.add_label` assigns a label to the output
pad with the given index. -/
def FGraph.add_label (fg : FGraph) (label : String) (outpad : Nat) : FGraph :=
  { fg with outPads := fg.outPads.map fun p => if p.1 = outpad then (p.1, some label, p.2.2) else p }

/-- First scan of `analyze_fg_outputs` over one graph's output pads: flag any
unlabeled pad and record every `out<N>`-shaped label in `out_labels`
(insertion-ordered, overwriting in place like a Python dict). -/
def scan_pads (gi : Nat) : List (Nat × Option String × Option MT) →
    List (String × OutPadRef) × Bool → List (String × OutPadRef) × Bool
  | [], st => st
  | (idx, lab?, mt) :: rest, (labels, unl) =>
    match lab? with
    | none => scan_pads gi rest (labels, true)
    | some lab =>
      if is_out_label lab then scan_pads gi rest (dictSet labels lab (gi, idx, mt), unl)
      else scan_pads gi rest (labels, unl)

/-- First scan of `analyze_fg_outputs` over all graphs in order. -/
def scan_graphs : Nat → List FGraph → List (String × OutPadRef) × Bool →
    List (String × OutPadRef) × Bool
  | _, [], st => st
  | gi, fg :: rest, st => scan_graphs (gi + 1) rest (scan_pads gi fg.outPads st)

/-- Drop from `out_labels` every label that is also an input-pad label of one
of the filtergraphs (internal connections are not externally mappable). -/
def remove_internal (gs : List FGraph) (labels : List (String × OutPadRef)) :
    List (String × OutPadRef) :=
  gs.foldl (fun l fg => fg.inLabels.foldl (fun l lab => dictErase l lab) l) labels

/-- The inner labeling loop of `analyze_fg_outputs` over one graph: label each
pad that was unlabeled on entry with `f"out{out_n}"`, record it in
`out_labels`, and advance `out_n` via the source's while loop.  Returns the
`new_labels` list for the graph together with the updated state. -/
def label_unlabeled_pads (gi : Nat) : List (Nat × Option String × Option MT) →
    List (String × OutPadRef) → Nat →
    List (String × Nat) × List (String × OutPadRef) × Nat
  | [], labels, n => ([], labels, n)
  | (idx, lab?, mt) :: rest, labels, n =>
    match lab? with
    | some _ => label_unlabeled_pads gi rest labels n
    | none =>
      let label := "out" ++ natToDec n
      let labels' := dictSet labels label (gi, idx, mt)
      let n' := next_out_n n labels'
      let (news, labels'', n'') := label_unlabeled_pads gi rest labels' n'
      ((label, idx) :: news, labels'', n'')

/-- The labeling pass of `analyze_fg_outputs` over all graphs: collect each
graph's new labels, then apply them with `add_label`. -/
def label_graphs : Nat → List FGraph → List (String × OutPadRef) → Nat →
    List FGraph × List (String × OutPadRef)
  | _, [], labels, _ => ([], labels)
  | gi, fg :: rest, labels, n =>
    let (news, labels', n') := label_unlabeled_pads gi fg.outPads labels n
    let fg' := news.foldl (fun g p => FGraph.add_label g p.1 p.2) fg
    let (rest', labels'') := label_graphs (gi + 1) rest labels' n'
    (fg' :: rest', labels'')

/-- `configure.analyze_fg_outputs`: list the output labels of the complex
filtergraphs in the `filter_complex` global option, auto-labeling unlabeled
output pads, and return the updated argument dict together with the map from
bracketed labels to media types.  The `filter_complex` value is expected to
hold already-parsed graph objects (textual graphs are parsed by the external
filtergraph module, outside the analysed sources). -/
def analyze_fg_outputs (args : FFmpegArgs) :
    Except String (FFmpegArgs × List (String × Option MT)) :=
  let gopts := args.global_options.getD []
  if hasKey gopts "filter_complex" then
    match dictGet gopts "filter_complex" with
    | some (.vgraphs gs) =>
      let (out_labels0, out_unlabeled) := scan_graphs 0 gs ([], false)
      let out_labels1 := if gs.length > 1 then remove_internal gs out_labels0 else out_labels0
      let (gs', out_labels2) :=
        if out_unlabeled then label_graphs 0 gs out_labels1 (first_unused_int out_labels1)
        else (gs, out_labels1)
      let map := out_labels2.map fun p => ("[" ++ p.1 ++ "]", p.2.2.2)
      .ok ({ args with
              global_options := some (dictSet gopts "filter_complex" (some (.vgraphs gs'))) },
           map)
    | _ => .error "filter_complex value not modelled"
  else .ok (args, [])

/-! ## `configure.retrieve_input_stream_ids` and `configure.auto_map` -/

/-- The `info["codec_type"] in get_args(MediaType)` filter: only `"audio"` and
`"video"` codec types are media streams. -/
def parseMT : String → Option MT
  | "audio" => some MT.audio
  | "video" => some MT.video
  | _ => none

/-- `configure.retrieve_input_stream_ids`: ids and media types of the streams
of one input source.  The two external collaborators are oracle parameters,
modelled from the spec: `sp_kwargs` is `utils.set_sp_kwargs_stdin`'s outcome
(`none` when the probe call cannot be issued, in which case the helper has
already logged a warning), and `probe_result` is `probe.streams_basic`'s
outcome (`.error` when it raises).  A failed probe yields an empty list plus a
logged warning; it never propagates. -/
def retrieve_input_stream_ids (sp_kwargs : Option Unit)
    (probe_result : Except String (List (Nat × String))) :
    List (Nat × MT) × List String :=
  match sp_kwargs with
  | none => ([], ["input source could not be probed"])
  | some _ =>
    match probe_result with
    | .error _ => ([], ["ffprobe failed."])
    | .ok rows => (rows.filterMap fun r => (parseMT r.2).map fun mt => (r.1, mt), [])

/-- Per-output stream information (`RawOutputInfoDict`).  The file/stream id
fields are `NotRequired` in the source; `none` stands for an absent key. -/
structure RawOutputInfo where
  dst_type : String
  user_map : Option String
  media_type : Option MT
  input_file_id : Option Nat
  input_stream_id : Option Nat
deriving DecidableEq, Repr

/-- The closure state of `auto_map`'s `next_map_option`: the current file and
the per-type stream counters. -/
structure MapCounter where
  file : Option Nat
  audio : Nat
  video : Nat
deriving DecidableEq, Repr

/-- `media_type[0]`: the first letter of `"audio"`/`"video"`. -/
def mtLetter : MT → String
  | .audio => "a"
  | .video => "v"

/-- The map-option key `f"{i}:{media_type[0]}:{j}"`. -/
def mkKey (i : Nat) (mt : MT) (j : Nat) : String :=
  natToDec i ++ ":" ++ mtLetter mt ++ ":" ++ natToDec j

/-- `auto_map`'s `next_map_option(i, media_type)`: reset the per-type counters
when the file index changes, then emit `i:x:j` and bump the type's counter. -/
def next_map_option (c : MapCounter) (i : Nat) (mt : MT) : String × MapCounter :=
  let c := if c.file ≠ some i then { file := some i, audio := 0, video := 0 } else c
  match mt with
  | .audio => (mkKey i .audio c.audio, { c with audio := c.audio + 1 })
  | .video => (mkKey i .video c.video, { c with video := c.video + 1 })

/-- The info record `auto_map` builds for input stream `j` of file `i`. -/
def streamInfo (i j : Nat) (mt : MT) : RawOutputInfo :=
  ⟨"pipe", none, some mt, some i, some j⟩

/-- `auto_map`'s inner comprehension loop over one input's streams. -/
def auto_map_file : MapCounter → Nat → List (Nat × MT) →
    List (String × RawOutputInfo) × MapCounter
  | c, _, [] => ([], c)
  | c, i, (j, mt) :: rest =>
    let (k, c') := next_map_option c i mt
    let (ps, c'') := auto_map_file c' i rest
    ((k, streamInfo i j mt) :: ps, c'')

/-- `auto_map`'s outer comprehension loop over the enumerated inputs. -/
def auto_map_inputs : MapCounter → Nat → List (List (Nat × MT)) →
    List (String × RawOutputInfo)
  | _, _, [] => []
  | c, i, s :: rest =>
    let (ps, c') := auto_map_file c i s
    ps ++ auto_map_inputs c' (i + 1) rest

/-- `configure.auto_map`: map all complex-filtergraph output pads when a
`filter_complex` global option is present, otherwise map every audio and video
stream of every input in file order with per-type per-file numbering.  The
probe of input `i` is represented by the oracle pair
`(sp_kwargs i, probe i)` fed to `retrieve_input_stream_ids` (the source passes
the input's info/url/options to the probe; the oracles depend on `i` in the
same way). -/
def auto_map (args : FFmpegArgs) (sp_kwargs : Nat → Option Unit)
    (probe : Nat → Except String (List (Nat × String))) :
    Except String (FFmpegArgs × List (String × RawOutputInfo)) :=
  let gopts := args.global_options.getD []
  if hasKey gopts "filter_complex" then do
    let (args', fgmap) ← analyze_fg_outputs args
    .ok (args', dictFromPairs (fgmap.map fun p => (p.1, ⟨"pipe", none, p.2, none, none⟩)))
  else
    let streams := (List.range args.inputs.length).map fun i =>
      (retrieve_input_stream_ids (sp_kwargs i) (probe i)).1
    .ok (args, dictFromPairs (auto_map_inputs ⟨none, 0, 0⟩ 0 streams))

/-- Number of streams of one media type in a probed stream list. -/
def countMT (mt : MT) (s : List (Nat × MT)) : Nat :=
  (s.filter fun p => decide (p.2 = mt)).length

/-- The per-file key sequence of `auto_map`'s numbering, written with explicit
per-type counters: the specification's reading of "keys of the form `i:x:j`
with `j` a per-type counter".  Starting both counters at zero gives one
file's keys. -/
def per_file_keys (i : Nat) : Nat → Nat → List (Nat × MT) → List String
  | _, _, [] => []
  | a, v, (_, .audio) :: ss => mkKey i .audio a :: per_file_keys i (a + 1) v ss
  | a, v, (_, .video) :: ss => mkKey i .video v :: per_file_keys i a (v + 1) ss

/-- The specification's key list for a whole input set: file by file, each
file's per-type counters starting afresh at zero (the claimed reset of `j`
whenever the file index changes). -/
def auto_map_keys_spec : Nat → List (List (Nat × MT)) → List String
  | _, [] => []
  | k, s :: rest => per_file_keys k 0 0 s ++ auto_map_keys_spec (k + 1) rest

/-! ## Map-option parsing and format catalogues (external collaborators) -/

/-- Parsed map-option fields (`stream_spec.parse_map_option`'s result). -/
inductive MapFields where
  | linklabel (label : String)
  | stream (input_file_id : Nat) (stream_specifier : Option String)
deriving DecidableEq, Repr

/-- Modelled from the spec: `stream_spec.parse_map_option` (the Stream-Specifier
Grammar, whose module is not among the analysed sources) parses either a
bracketed filtergraph link label or `file_index[:stream_specifier]` with an
integer file index; anything else raises. -/
def parse_map_option (s : String) : Option MapFields :=
  if strStartsWith s "[" then
    if strEndsWith s "]" && s.data.length > 2 then some (.linklabel s) else none
  else
    match splitColon s.data with
    | [f] => (strToNat? ⟨f⟩).map fun n => .stream n none
    | f :: rest => (strToNat? ⟨f⟩).map fun n => .stream n (some ⟨joinColon rest⟩)
    | [] => none

/-- Modelled from the spec: the rows of the pixel-format catalogue
(`utils.get_pixel_config` / `utils.get_pixel_format` are in the `utils`
module, outside the analysed sources) that the claims exercise:
name ↦ (components, dtype, has-alpha). -/
def pixelFormats : List (String × Nat × String × Bool) :=
  [("rgb24", (3, "|u1", false)), ("rgba", (4, "|u1", true)),
   ("gray", (1, "|u1", false)), ("ya8", (2, "|u1", true)),
   ("gray16le", (1, "<u2", false)), ("rgb48le", (3, "<u2", false))]

/-- Modelled from the spec: `utils.get_pixel_format(pix_fmt) -> (dtype, ncomp)`,
raising on an unknown format. -/
def get_pixel_format (pix_fmt : String) : Except String (String × Nat) :=
  match lookupD pixelFormats pix_fmt with
  | some (ncomp, dtype, _) => .ok (dtype, ncomp)
  | none => .error "unknown pixel format"

/-- Modelled from the spec: `utils.get_pixel_config(input_pix_fmt, pix_fmt)`
returns the output pixel format (the input's when none is requested), its
component count and dtype, and whether an alpha channel must be removed
(input has alpha, requested output does not). -/
def get_pixel_config (input_pix_fmt : String) (pix_fmt : Option String) :
    Except String (String × Nat × String × Bool) :=
  match lookupD pixelFormats input_pix_fmt with
  | none => .error "unknown pixel format"
  | some (_, _, inAlpha) =>
    let out := pix_fmt.getD input_pix_fmt
    match lookupD pixelFormats out with
    | none => .error "unknown pixel format"
    | some (ncomp, dtype, outAlpha) => .ok (out, ncomp, dtype, inAlpha && !outAlpha)

/-! ## `configure.build_basic_vf` -/

/-- Parse a decimal integer prefix (`-?\d+`), returning it and the rest. -/
def parseIntPrefix : List Char → Option (Int × List Char)
  | '-' :: rest =>
    let (ds, rem) := rest.span Char.isDigit
    if ds.isEmpty then none else some (-(decVal ds : Int), rem)
  | cs =>
    let (ds, rem) := cs.span Char.isDigit
    if ds.isEmpty then none else some ((decVal ds : Int), rem)

/-- `re.match(r"(-?\d+)x(-?\d+)", scale)`: an (unanchored-at-the-end) prefix
match of `WxH`. -/
def parseWxH (s : String) : Option (Int × Int) :=
  match parseIntPrefix s.data with
  | some (a, 'x' :: rest) => (parseIntPrefix rest).map fun p => (a, p.1)
  | _ => none

/-- Outcome of `build_basic_vf`'s `s`-option inspection: either the option
stays (a positive size), or it is moved into a `scale` filter entry with the
given value, or the source raises. -/
inductive ScaleDecision where
  | keep
  | move (v : Val)
  | raise (msg : String)

/-- The `s`-option block of `build_basic_vf`: a string is regex-parsed into a
pair when possible; a value that is not a pair of two positive integers is
moved from the output options into a `scale` filter option.  (`len(scale)` on
a non-sequence, or an ordering comparison on non-integers, raises in Python.) -/
def scale_decision : Option Val → ScaleDecision
  | none => .keep
  | some (.vstr s) =>
    match parseWxH s with
    | some (a, b) => if a ≤ 0 ∨ b ≤ 0 then .move (.vpair a b) else .keep
    | none => if s.data.length ≠ 2 then .move (.vstr s) else .raise "TypeError"
  | some (.vpair a b) => if a ≤ 0 ∨ b ≤ 0 then .move (.vpair a b) else .keep
  | some (.vlist l) =>
    match l with
    | [.vint a, .vint b] => if a ≤ 0 ∨ b ≤ 0 then .move (.vlist l) else .keep
    | _ => if l.length ≠ 2 then .move (.vlist l) else .raise "TypeError"
  | some _ => .raise "TypeError"

/-- `configure.build_basic_vf`: move the basic video-filter options (`crop`,
`flip`, `transpose`, `square_pixels`, a non-positive `s`) and the
alpha-removal request out of the output options and into the `vf` option,
appending preset fragments to the existing simple filter (or to a fresh
`Chain`).  Returns the updated argument dict, the source's boolean result,
and the warnings logged.  Note `outopts.pop("filter:v", outopts.pop("vf",
None))`: the inner `pop` is evaluated first, so both keys are always
removed. -/
def build_basic_vf (args : FFmpegArgs) (remove_alpha : Option Bool) (ofile : Nat) :
    Except String (FFmpegArgs × Bool × List String) :=
  match args.outputs.get? ofile with
  | none => .error "IndexError"
  | some (ourl, oopts?) =>
    match oopts? with
    | none => .error "AttributeError"
    | some o0 =>
      let (cropV, o1) := dictPop o0 "crop" none
      let (flipV, o2) := dictPop o1 "flip" none
      let (transposeV, o3) := dictPop o2 "transpose" none
      let (spV, o4) := dictPop o3 "square_pixels" none
      let (fcV, o5) := dictPop o4 "fill_color" none
      let (raV, o6) := dictPop o5 "remove_alpha" (remove_alpha.map Val.vbool)
      let raV := if fcV.isSome then some (Val.vbool true) else raV
      match scale_decision (dictGet o6 "s") with
      | .raise msg => .error msg
      | dec =>
        let (scaleV, o7) : PyObj × PyDict :=
          match dec with
          | .move v => (some v, dictErase o6 "s")
          | _ => (none, o6)
        let basic := [cropV, flipV, transposeV, spV, scaleV].any truthy
        if !(basic || truthy raV) then
          .ok (setFileList args .output (args.outputs.set ofile (ourl, some o7)), false, [])
        else
          let (vfV, o8) := dictPop o7 "vf" none
          let (fvV, o9) := dictPop o8 "filter:v" vfV
          match pyOr fvV (some (.vchain [])) with
          | some (.vchain c) =>
            let c := if basic then c ++ [VFNode.basicVF cropV flipV transposeV spV scaleV] else c
            let (c, warns) :=
              if truthy raV then
                match fcV with
                | none =>
                  (c ++ [VFNode.removeAlpha (some (.vstr "white"))],
                   ["fill_color option not specified, uses white background color by default."])
                | some fc => (c ++ [VFNode.removeAlpha (some fc)], [])
              else (c, [])
            let o10 := dictSet o9 "vf" (some (.vchain c))
            .ok (setFileList args .output (args.outputs.set ofile (ourl, some o10)), true, warns)
          | _ => .error "existing filter value not modelled"

/-! ## `configure.finalize_video_read_opts` -/

/-- A triple of Python option values (`r`/`pix_fmt`/`s`, or the corresponding
probed stream fields). -/
abbrev Vals3 : Type := PyObj × PyObj × PyObj

/-- `all(opt_vals)` for a value triple. -/
def all3 (a : Vals3) : Bool := truthy a.1 && truthy a.2.1 && truthy a.2.2

/-- Python `ac and (ac,)`: the value itself when falsy, else the one-element
tuple wrapping it. -/
def pyAndTuple1 (ac : PyObj) : PyObj :=
  if truthy ac then (match ac with | some acv => some (.vlist [acv]) | none => none) else ac

/-- `[v or s for v, s in zip(a, b)]` for value triples. -/
def pyOr3 (a b : Vals3) : Vals3 := (pyOr a.1 b.1, pyOr a.2.1 b.2.1, pyOr a.2.2 b.2.2)

/-- `(width, height)` tuple construction in `flds2opts`. -/
def mkSizePair : Val → Val → Val
  | .vint a, .vint b => .vpair a b
  | a, b => .vlist [a, b]

/-- `finalize_video_read_opts`'s local `flds2opts`: turn the five probed
fields `[pix_fmt, width, height, r_frame_rate, avg_frame_rate]` into the
`(r, pix_fmt, s)` triple, with `r = r1 or r2` and `s = (width, height)` only
when both are truthy. -/
def flds2opts : List PyObj → Vals3
  | [pf, w, h, r1, r2] =>
    (pyOr r1 r2, pf,
     match w, h with
     | some wv, some hv => if truthy (some wv) && truthy (some hv) then some (mkSizePair wv hv) else none
     | _, _ => none)
  | _ => (none, none, none)

/-- `(*s[::-1], ncomp)`: reverse the size value and append the component
count (which may be `None`). -/
def revShape (ncomp : Option Nat) : Val → Except String (Val × Val × Option Nat)
  | .vpair a b => .ok (.vint b, .vint a, ncomp)
  | .vlist [x, y] => .ok (y, x, ncomp)
  | _ => .error "TypeError"

/-- `configure.finalize_video_read_opts`: finalize the raw-video output
options of output `ofile`, filling rate / pixel format / size from the output
options, else the mapped input's options, else the probed stream (the two
`utils.analyze_input_stream` probes — of the input url and of the synthetic
source-plus-filter filtergraph — are the oracle parameters `st_vals_url` and
`st_vals_fg`, since `utils` is outside the analysed sources).  Appends the
alpha-removal filter via `build_basic_vf` when the input has an alpha channel
the requested output format lacks.  Returns the updated argument dict, the
`(dtype, shape, rate)` result, and the warnings logged. -/
def finalize_video_read_opts (st_vals_url st_vals_fg : List PyObj)
    (args : FFmpegArgs) (ofile : Nat) :
    Except String (FFmpegArgs × (Option String × Option (Val × Val × Option Nat) × PyObj) × List String) := do
  match args.outputs.get? ofile with
  | none => .error "IndexError"
  | some (ourl, oopts?) =>
    match oopts? with
    | none => .error "TypeError"
    | some o0 =>
      match dictGet o0 "map" with
      | some (.vstr m) =>
        match parse_map_option m with
        | none => .error "MalformedSpecifierError"
        | some fields =>
          let has_simple_filter := hasKey o0 "vf" || hasKey o0 "filter:v"
          let fill_color := dictGet o0 "fill_color"
          let o1 := if fill_color.isSome && !(hasKey o0 "remove_alpha") then dictErase o0 "fill_color" else o0
          let opt_vals : Vals3 := (dictGet o1 "r", dictGet o1 "pix_fmt", dictGet o1 "s")
          let args1 := setFileList args .output (args.outputs.set ofile (ourl, some o1))
          let (args2, inopt_vals, warns0) ← (do
            match fields with
            | .linklabel _ =>
              pure (args1, ((none, none, none) : Vals3),
                ["Pre-analysis of complex filtergraphs is not currently available."])
            | .stream ifile _ =>
              let (args2, _, w0) ← build_basic_vf args1 (some false) ofile
              match args2.inputs.get? ifile with
              | none => .error "IndexError"
              | some (_, inopts?) =>
                match inopts? with
                | none => .error "AttributeError"
                | some inopts =>
                  let iv : Vals3 := (dictGet inopts "r", dictGet inopts "pix_fmt", dictGet inopts "s")
                  let iv := if !all3 iv then pyOr3 iv (flds2opts st_vals_url) else iv
                  let iv := if has_simple_filter then flds2opts st_vals_fg else iv
                  pure (args2, iv, w0))
          let (r, pix_fmt, s) := opt_vals
          let (r_in, pix_fmt_in, s_in) := inopt_vals
          -- re-read the (possibly rewritten) output options of args2
          match args2.outputs.get? ofile with
          | none => .error "IndexError"
          | some (ourl2, oopts2?) =>
            match oopts2? with
            | none => .error "AttributeError"
            | some o2 =>
              let (args3, ncompO, dtypeO, warns1) ←
                (do
                  match pix_fmt with
                  | none =>
                    -- try: outopts["pix_fmt"], ncomp, dtype, _ = get_pixel_config(pix_fmt_in)
                    -- except: ncomp = dtype = None
                    match pix_fmt_in with
                    | some (.vstr pin) =>
                      match get_pixel_config pin none with
                      | .ok (outfmt, ncomp, dtype, _) =>
                        let o3 := dictSet o2 "pix_fmt" (some (.vstr outfmt))
                        pure (setFileList args2 .output (args2.outputs.set ofile (ourl2, some o3)),
                              some ncomp, some dtype, ([] : List String))
                      | .error _ => pure (args2, none, none, [])
                    | _ => pure (args2, none, none, [])
                  | some pv =>
                    match pix_fmt_in with
                    | none =>
                      -- try: dtype, ncomp = get_pixel_format(pix_fmt) except: None
                      match pv with
                      | .vstr ps =>
                        match get_pixel_format ps with
                        | .ok (dtype, ncomp) => pure (args2, some ncomp, some dtype, [])
                        | .error _ => pure (args2, none, none, [])
                      | _ => pure (args2, none, none, [])
                    | some piv =>
                      -- get_pixel_config(pix_fmt_in, pix_fmt): errors propagate here
                      match piv, pv with
                      | .vstr pin, .vstr ps => do
                        let (_, ncomp, dtype, remove_alpha) ← get_pixel_config pin (some ps)
                        if remove_alpha then do
                          -- append the remove-video-alpha filter chain
                          let (args3, _, w1) ← build_basic_vf args2 (some true) ofile
                          pure (args3, some ncomp, some dtype, w1)
                        else pure (args2, some ncomp, some dtype, [])
                      | _, _ => .error "TypeError" :
                  Except String (FFmpegArgs × Option Nat × Option String × List String))
              match args3.outputs.get? ofile with
              | none => .error "IndexError"
              | some (ourl3, oopts3?) =>
                match oopts3? with
                | none => .error "AttributeError"
                | some oF =>
                  let oF := dictSet oF "f" (some (.vstr "rawvideo"))
                  let args4 := setFileList args3 .output (args3.outputs.set ofile (ourl3, some oF))
                  let rOut := pyOr r r_in
                  let sOut := pyOr s s_in
                  let shape ← (match sOut with
                    | none => pure none
                    | some sv => (revShape ncompO sv).map some)
                  .ok (args4, (dtypeO, shape, rOut), warns0 ++ warns1)
      | _ => .error "map option value not modelled"

/-! ## `configure.finalize_audio_read_opts` -/

/-- The resolution phase of `finalize_audio_read_opts`: the `(ar, sample_fmt,
ac)` triple from the output options, backfilled — unless already complete —
from the mapped input's options and the probed stream values (`st_vals_url`),
or replaced by the synthetic-filtergraph probe (`st_vals_fg`) when a simple
audio filter is present; a filtergraph-output map skips probing with a logged
warning.  The two `utils.analyze_input_stream` probes are oracle parameters
(`utils` is outside the analysed sources). -/
def resolve_audio_vals (st_vals_url st_vals_fg : Vals3) (args : FFmpegArgs)
    (fields : MapFields) (outopts : PyDict) : Except String (Vals3 × List String) :=
  let opt_vals : Vals3 := (dictGet outopts "ar", dictGet outopts "sample_fmt", dictGet outopts "ac")
  if !all3 opt_vals then
    match fields with
    | .linklabel _ =>
      .ok (opt_vals, ["Pre-analysis of complex filtergraphs is not currently available."])
    | .stream ifile _ =>
      match args.inputs.get? ifile with
      | none => .error "IndexError"
      | some (_, inopts?) =>
        match inopts? with
        | none => .error "AttributeError"
        | some inopts =>
          let iv : Vals3 := (dictGet inopts "ar", dictGet inopts "sample_fmt", dictGet inopts "ac")
          let iv := if !all3 iv then pyOr3 iv st_vals_url else iv
          let iv := if hasKey outopts "af" || hasKey outopts "filter:a" then st_vals_fg else iv
          .ok (pyOr3 opt_vals iv, [])
  else .ok (opt_vals, [])

/-- `configure.finalize_audio_read_opts`: finalize the raw-audio output
options of output `ofile`.  After resolving `(ar, sample_fmt, ac)` via
`resolve_audio_vals`, a missing sample format falls back to `"dbl"` with a
warning; a planar sample format (name ending in `"p"`) is rewritten to its
interleaved equivalent (the name with the trailing character dropped) with a
warning; then the `c:a` and `f` output options are set from
`utils.get_audio_codec(sample_fmt)` and the dtype from
`utils.get_audio_format(sample_fmt, ac)` — both in the external `utils`
module, passed here as the oracle functions `gac` and `gaf`.  Returns the
updated argument dict, the `(dtype, channels, rate)` result, and the warnings
logged. -/
def finalize_audio_read_opts (gac : String → String × String)
    (gaf : String → PyObj → String) (st_vals_url st_vals_fg : Vals3)
    (args : FFmpegArgs) (ofile : Nat) :
    Except String (FFmpegArgs × (String × PyObj × PyObj) × List String) := do
  match args.outputs.get? ofile with
  | none => .error "IndexError"
  | some (ourl, oopts?) =>
    match oopts? with
    | none => .error "TypeError"
    | some o0 =>
      match dictGet o0 "map" with
      | some (.vstr m) =>
        match parse_map_option m with
        | none => .error "MalformedSpecifierError"
        | some fields =>
          let (opt_vals, warns0) ← resolve_audio_vals st_vals_url st_vals_fg args fields o0
          let (ar, sfV, ac) := opt_vals
          let (o1, sf, warns1) ←
            (match sfV with
             | none =>
               .ok (dictSet o0 "sample_fmt" (some (.vstr "dbl")), "dbl",
                 ["Sample format of audio stream could not be retrieved. Uses dbl."])
             | some (.vstr f) =>
               if f = "" then .error "IndexError"
               else if lastChar f.data = 'p' then
                 .ok (dictSet o0 "sample_fmt" (some (.vstr (strDropRight f 1))), strDropRight f 1,
                   ["planar sample format " ++ f ++ " is not supported for audio data IO. Changed to "
                     ++ strDropRight f 1 ++ "."])
               else .ok (o0, f, [])
             | some _ => .error "TypeError" :
             Except String (PyDict × String × List String))
          let (ca, fmt) := gac sf
          let o2 := dictSet (dictSet o1 "c:a" (some (.vstr ca))) "f" (some (.vstr fmt))
          let dtype := gaf sf ac
          let acRet : PyObj := pyAndTuple1 ac
          let args' := setFileList args .output (args.outputs.set ofile (ourl, some o2))
          .ok (args', (dtype, acRet, ar), warns0 ++ warns1)
      | _ => .error "map option value not modelled"

/-! ## `configure.add_filtergraph`, `configure.init_media_read`,
`configure.init_media_write` -/

/-- Modelled from the spec: `Graph.iter_output_labels` yields the labels of the
graph's labeled output pads. -/
def FGraph.iter_output_labels (fg : FGraph) : List String := fg.outPads.filterMap fun p => p.2.1

/-- Modelled from the spec: `utils.pop_extra_options(options, "_in")` removes
every option whose name carries the `_in` suffix and returns the removed
options with the suffix stripped (blanket input options), together with the
remaining options (`utils` is outside the analysed sources). -/
def pop_extra_options (options : PyDict) : PyDict × PyDict :=
  ((options.filter fun kv => strEndsWith kv.1 "_in").map fun kv => (strDropRight kv.1 3, kv.2),
   options.filter fun kv => !strEndsWith kv.1 "_in")

/-- `configure.add_filtergraph`: append a complex filtergraph to the
`filter_complex` global option and map its output pads in output `ofile`'s
`map` option.  The stored `filter_complex` value is expected to hold
already-parsed graph objects. -/
def add_filtergraph (args : FFmpegArgs) (filtergraph : FGraph)
    (map : Option (List String) := none) (automap : Bool := true)
    (append_filter : Bool := true) (append_map : Bool := true) (ofile : Nat := 0) :
    Except String FFmpegArgs := do
  if args.outputs.length ≤ ofile then
    .error "The specified output is not defined in the FFmpegArgs dict."
  else
    let map := if automap && map.isNone then
        some (filtergraph.iter_output_labels.map fun l => "[" ++ l ++ "]")
      else map
    let gopts := args.global_options
    let cf : PyObj := match gopts with | none => none | some g => dictGet g "filter_complex"
    let complex ← (if append_filter then
        match cf with
        | none => .ok [filtergraph]
        | v => (match v with
          | some (.vgraphs gs) => .ok (gs ++ [filtergraph])
          | _ => .error "filter_complex value not modelled")
      else .ok [filtergraph] : Except String (List FGraph))
    let gopts' := match gopts with
      | none => [("filter_complex", some (Val.vgraphs complex))]
      | some g => dictSet g "filter_complex" (some (Val.vgraphs complex))
    let args := { args with global_options := some gopts' }
    match map with
    | none => .error "TypeError"
    | some [] => .ok args
    | some ms =>
      match args.outputs.get? ofile with
      | none => .error "IndexError"
      | some (ourl, oopts?) =>
        match oopts? with
        | none =>
          .ok (setFileList args .output
            (args.outputs.set ofile (ourl, some [("map", some (.vlist (ms.map .vstr)))])))
        | some oopts =>
          let newMap ← (if append_map && hasKey oopts "map" then
              match dictGet oopts "map" with
              | some (.vlist l) => .ok (Val.vlist (l ++ ms.map .vstr))
              | some v => .ok (Val.vlist (v :: ms.map .vstr))
              | none => .error "existing map value not modelled"
            else .ok (Val.vlist (ms.map .vstr)) : Except String Val)
          .ok (setFileList args .output
            (args.outputs.set ofile (ourl, some (dictSet oopts "map" (some newMap)))))

/-- `configure.init_media_read`, head validations: at least one url must be
given, and a pre-existing `n` option is rejected (it is incompatible with
outputting to named pipes) before any argument dict is built.  Everything the
source does after these checks — option splitting, input classification,
output resolution — runs only when both pass and is abstracted as the
continuation `rest`, so the theorems about the validations hold for every
continuation. -/
def init_media_read {α β : Type} (rest : List α → Option (List String) → PyDict → Except String β)
    (urls : List α) (map : Option (List String)) (options : PyDict) : Except String β :=
  if urls.length = 0 then .error "At least one URL must be given."
  else if hasKey options "n" then .error "Cannot have an n option set to output to named pipes."
  else rest urls map options

/-- The `merge_audio_streams` argument of `init_media_write`:
`bool | Sequence[int]`. -/
inductive MergeSpec where
  | flag (b : Bool)
  | streams (l : List Nat)
deriving DecidableEq, Repr

/-- Python truthiness of a `MergeSpec`. -/
def mergeTruthy : MergeSpec → Bool
  | .flag b => b
  | .streams l => !l.isEmpty

/-- `i not in merge_audio_streams` for one element of the `map` list (a
non-integer element never equals an integer index, so it is kept). -/
def memMerge (v : Val) (mas : List Nat) : Bool :=
  match v with
  | .vint n => mas.any fun i => (i : Int) = n
  | _ => false

/-- `configure.init_media_write`: create one pipe-backed input per logical
input stream, map all inputs to the output unless a `map` option is given,
optionally merge the audio streams through a synthesized filtergraph, and add
the output url.  `merge_audio` is the `filtergraph.presets.merge_audio`
generator (outside the analysed sources) and `pipe_path` models the named-pipe
paths that `NPopen` allocates; both are oracle parameters.  Returns the
argument dict and the created pipe paths.  Note the source performs no
validation of the `options` dict here (in particular no `n`-option check). -/
def init_media_write (merge_audio : List (Nat × PyDict) → PyObj → PyObj → String → FGraph)
    (pipe_path : Nat → String) (url : Option String) (input_opts : List PyDict)
    (merge_audio_streams : MergeSpec) (merge_audio_ar merge_audio_sample_fmt : PyObj)
    (merge_audio_outpad : Option String)
    (extra_inputs : Option (List (Option String × Option PyDict)))
    (options : PyDict) : Except String (FFmpegArgs × List String) := do
  let n_in := input_opts.length
  let (default_in_opts, options) := pop_extra_options options
  let step := fun (st : FFmpegArgs × List String × Nat) (opts : PyDict) =>
    let (args, pipes, k) := st
    let (args', _, _) := add_url args .input (some (pipe_path k)) (some (dictMerge default_in_opts opts)) false
    (args', pipes ++ [pipe_path k], k + 1)
  let (args, pipes, _) := input_opts.foldl step (empty none, [], 0)
  let n_ain := (input_opts.filter fun o => hasKey o "ar").length
  let mapVal : PyObj := match lookupD options "map" with
    | some v => v
    | none => some (.vlist ((List.range n_in).map fun i => .vint i))
  let do_merge := mergeTruthy merge_audio_streams && decide (1 < n_ain)
  let (options, mas) ← (if do_merge then do
      let mas ← (match merge_audio_streams with
        | .flag _ =>
          .ok ((input_opts.enum.filter fun p => hasKey p.2 "ar").map fun p => p.1)
        | .streams l =>
          if l.any (fun i => n_in ≤ i) then .error "IndexError"
          else if l.all (fun i => hasKey (input_opts.getD i []) "ar") then .ok l
          else .error "merge_audio_streams argument must be bool or a sequence of indices of input audio streams."
        : Except String (List Nat))
      let filtered ← (match mapVal with
        | some (.vlist l) => .ok (l.filter fun v => !memMerge v mas)
        | some (.vstr s) =>
          .ok ((s.data.map fun c => Val.vstr (String.singleton c)).filter fun v => !memMerge v mas)
        | _ => .error "TypeError" : Except String (List Val))
      .ok (dictSet options "map" (some (.vlist filtered)), mas)
    else .ok (options, []) : Except String (PyDict × List Nat))
  let (args, _, _) := add_url args .output url (some options) false
  let args := match extra_inputs with
    | none => args
    | some l => l.foldl (fun a p => (add_url a .input p.1 p.2 false).1) args
  if do_merge then
    let audio_streams := mas.map fun i => (i, ((args.inputs.getD i (none, none)).2).getD [])
    let outpad := match merge_audio_outpad with
      | none => "aout"
      | some s => if s = "" then "aout" else s
    let afilt := merge_audio audio_streams merge_audio_ar merge_audio_sample_fmt outpad
    let args ← add_filtergraph args afilt none true true true 0
    .ok (args, pipes)
  else
    .ok (args, pipes)

/-! ## Concrete instances used by the theorems -/

/-- The C1 failing input: one complex filtergraph with output pad 0 already
labeled `out0` (video) and output pad 1 unlabeled (audio). -/
def fgC1 : FGraph := ⟨[(0, some "out0", some MT.video), (1, none, some MT.audio)], []⟩

/-- FFmpeg arguments holding `fgC1` as the `filter_complex` global option. -/
def argsC1 : FFmpegArgs := ⟨[], [], some [("filter_complex", some (.vgraphs [fgC1]))]⟩

/-- A fully labeled filtergraph (every output pad carries a label). -/
def fgC9 : FGraph := ⟨[(0, some "out0", some MT.video), (1, some "aout", some MT.audio)], []⟩

/-- FFmpeg arguments holding `fgC9` as the `filter_complex` global option. -/
def argsC9 : FFmpegArgs := ⟨[], [], some [("filter_complex", some (.vgraphs [fgC9]))]⟩

/-- The first element of a lookup chain that is present (`Option.orElse` at
the value level), used to state `get_option`'s first-match-wins contract. -/
def firstSome (a b : PyObj) : PyObj :=
  match a with
  | some v => some v
  | none => b

/-- The C3 option dict `{"c": 0, "c:v": 1, "c:v:0": 2}` on output 0. -/
def argsC3 : FFmpegArgs :=
  ⟨[], [(none, some [("c", some (.vint 0)), ("c:v", some (.vint 1)), ("c:v:0", some (.vint 2))])],
   some []⟩

/-- A trivial stand-in for the external `merge_audio` preset (the merge branch
is not taken in the C7 counterexample). -/
def mergeStub : List (Nat × PyDict) → PyObj → PyObj → String → FGraph := fun _ _ _ _ => ⟨[], []⟩

/-- Concrete pipe-path allocator for the C7 counterexample. -/
def pipeStub : Nat → String := fun k => "pipe" ++ natToDec k

/-- The C5 witness output options: a fully specified planar audio output. -/
def oC5 : PyDict :=
  [("map", some (.vstr "0:a:0")), ("ar", some (.vint 8000)),
   ("sample_fmt", some (.vstr "s16p")), ("ac", some (.vint 1))]

/-- FFmpeg arguments for the C5 witness. -/
def argsC5 : FFmpegArgs := ⟨[], [(none, some oC5)], some []⟩

/-- A concrete audio-codec table stand-in for the C5 witness. -/
def gacC5 : String → String × String := fun s => ("pcm_" ++ s ++ "le", s ++ "le")

/-- A concrete audio-format table stand-in for the C5 witness. -/
def gafC5 : String → PyObj → String := fun s _ => s

/-- The C4 failing input: input 0 is an `rgba` video stream with known rate
and size; output 0 requests `pix_fmt="rgb24"` and supplies
`fill_color="red"` (without a `remove_alpha` option). -/
def argsC4 : FFmpegArgs :=
  ⟨[(some "in.mp4",
     some [("r", some (.vint 30)), ("pix_fmt", some (.vstr "rgba")), ("s", some (.vpair 320 240))])],
   [(none,
     some [("map", some (.vstr "0:v:0")), ("pix_fmt", some (.vstr "rgb24")),
           ("fill_color", some (.vstr "red"))])],
   some []⟩

/-- One input url with no options, for the C2 concrete example. -/
def argsC2 : FFmpegArgs := ⟨[(some "in.mp4", none)], [], some []⟩

/-- The C2 probe oracle: streams `[(0, video), (1, audio), (2, video),
(3, audio)]`. -/
def probeC2 : Nat → Except String (List (Nat × String)) :=
  fun _ => .ok [(0, "video"), (1, "audio"), (2, "video"), (3, "audio")]

/-! ## Theorems -/

/-! ### Claim C1: auto-labeling invariant (`analyze_fg_outputs`) -/

/-- C1: the claimed invariant fails on the code.  `analyze_fg_outputs`
collects the existing `out<N>` suffixes in `out_indices` but never consults
them: the `i not in out_labels` test compares integers against the label
*strings*, so it is vacuously true and the label counter always starts at 0.
On a filtergraph whose pad 0 already carries `out0` and whose pad 1 is
unlabeled, the code relabels pad 1 with the same `out0` — reusing an
existing label instead of picking the smallest non-colliding suffix `out1` —
and the returned map binds `[out0]` to the newly labeled pad only, so the
previously labeled pad is no longer mappable.  This contradicts the
function's own docstring ("If a label has already been assigned to another
output pad, that label will be skipped."). -/
theorem claim_C1_analyze_fg_outputs_reuses_label :
    analyze_fg_outputs argsC1 =
      .ok (⟨[], [], some [("filter_complex",
              some (.vgraphs [⟨[(0, some "out0", some MT.video),
                                (1, some "out0", some MT.audio)], []⟩]))]⟩,
           [("[out0]", some MT.audio)]) := rfl

/-! ### Claim C9: auto-labeling is idempotent on fully labeled sets -/

theorem scan_pads_unl (gi : Nat) (pads : List (Nat × Option String × Option MT))
    (st : List (String × OutPadRef) × Bool) :
    (scan_pads gi pads st).2 = (st.2 || pads.any fun p => p.2.1.isNone) := by
  induction pads generalizing st with
  | nil => simp [scan_pads]
  | cons p rest ih =>
    obtain ⟨labels, unl⟩ := st
    obtain ⟨idx, lab?, mt⟩ := p
    cases lab? with
    | none => simp [scan_pads, ih]
    | some lab =>
      by_cases h : is_out_label lab <;>
        simp [scan_pads, h, ih, Bool.or_assoc]

theorem scan_graphs_unl (gi : Nat) (gs : List FGraph)
    (st : List (String × OutPadRef) × Bool) :
    (scan_graphs gi gs st).2 = (st.2 || gs.any fun fg => fg.outPads.any fun p => p.2.1.isNone) := by
  induction gs generalizing gi st with
  | nil => simp [scan_graphs]
  | cons fg rest ih =>
    simp [scan_graphs, ih, scan_pads_unl, Bool.or_assoc]

/-- C9: auto-labeling is idempotent: when every output pad of every listed
complex filtergraph already carries a label, `analyze_fg_outputs` assigns no
new labels and changes no existing pad label — the filtergraph list stored
back into `filter_complex` is exactly the input list. -/
theorem claim_C9_analyze_fg_outputs_idempotent (args : FFmpegArgs) (g : PyDict)
    (gs : List FGraph)
    (hg : args.global_options = some g)
    (hcf : dictGet g "filter_complex" = some (.vgraphs gs))
    (hlab : ∀ fg ∈ gs, ∀ p ∈ fg.outPads, (p.2.1).isSome = true) :
    ∃ m, analyze_fg_outputs args =
      .ok ({ args with global_options := some (dictSet g "filter_complex" (some (.vgraphs gs))) }, m) := by
  have hkey : hasKey g "filter_complex" = true := by
    unfold dictGet at hcf
    unfold hasKey
    cases h : lookupD g "filter_complex" with
    | none => rw [h] at hcf; simp at hcf
    | some v => simp
  have hunl : (scan_graphs 0 gs ([], false)).2 = false := by
    rw [scan_graphs_unl]
    simp only [Bool.false_or, List.any_eq_false]
    intro fg hfg hany
    rw [List.any_eq_true] at hany
    obtain ⟨p, hp, hnone⟩ := hany
    have := hlab fg hfg p hp
    rw [Option.isNone_iff_eq_none] at hnone
    rw [hnone] at this
    simp at this
  unfold analyze_fg_outputs
  rw [hg]
  rcases hscan : scan_graphs 0 gs ([], false) with ⟨L, U⟩
  rw [hscan] at hunl
  have hU : U = false := hunl
  subst hU
  simp only [Option.getD_some, hkey, if_true, hcf, hscan]
  exact ⟨_, rfl⟩

/-- C9 witness: the idempotence theorem applied to the concrete fully labeled
filtergraph set `[fgC9]`. -/
theorem claim_C9_witness :
    argsC9.global_options = some [("filter_complex", some (.vgraphs [fgC9]))] ∧
    dictGet [("filter_complex", some (.vgraphs [fgC9]))] "filter_complex" = some (.vgraphs [fgC9]) ∧
    (∀ fg ∈ [fgC9], ∀ p ∈ fg.outPads, (p.2.1).isSome = true) ∧
    ∃ m, analyze_fg_outputs argsC9 =
      .ok ((⟨[], [],
             some (dictSet [("filter_complex", some (.vgraphs [fgC9]))] "filter_complex"
               (some (.vgraphs [fgC9])))⟩ : FFmpegArgs), m) :=
  ⟨rfl, rfl, by decide,
   claim_C9_analyze_fg_outputs_idempotent argsC9 _ [fgC9] rfl rfl (by decide)⟩

/-! ### Claim C6: `add_url` on an empty argument dict -/

/-- C6: evaluation at the failing input.  On `empty()` arguments,
`add_url(args, "input", "test.mp4", None)` returns index 0 but stores the
entry `("test.mp4", {})` — an *empty dict*, not `None` as the claim (and the
repository's own `test_add_url`) expects; the subsequent updating call merges
`{"f": "rawvideo"}` into index 0 without growing the list. -/
theorem claim_C6_add_url_stores_empty_dict :
    (add_url (empty none) .input (some "test.mp4") none false =
      (⟨[(some "test.mp4", some [])], [], some []⟩, 0, (some "test.mp4", some []))) ∧
    (some ([] : PyDict) ≠ (none : Option PyDict)) ∧
    (add_url ⟨[(some "test.mp4", some [])], [], some []⟩ .input (some "test.mp4")
        (some [("f", some (.vstr "rawvideo"))]) true =
      (⟨[(some "test.mp4", some [("f", some (.vstr "rawvideo"))])], [], some []⟩, 0,
       (some "test.mp4", some [("f", some (.vstr "rawvideo"))]))) :=
  ⟨rfl, by simp, rfl⟩

/-! ### Claim C3: `get_option` specificity order -/

/-- C3: `get_option` tries the qualified names in strictly decreasing
specificity — `name:type:index`, then `name:type`, then `name` — and returns
the first present value: for every option dict the result is the `firstSome`
chain of the three lookups; in particular, on
`{"c": 0, "c:v": 1, "c:v:0": 2}`, querying `c` with stream type `v` and
stream id 0 gives 2, with only the stream type gives 1, and with neither
gives 0. -/
theorem claim_C3_get_option_specificity :
    (∀ (d : PyDict) (name st : String) (sid : Nat),
      get_option (some ⟨[], [(none, some d)], some []⟩) .output name 0 (some st) (some sid) =
        .ok (firstSome (dictGet d (name ++ ":" ++ st ++ ":" ++ natToDec sid))
              (firstSome (dictGet d (name ++ ":" ++ st)) (firstSome (dictGet d name) none)))) ∧
    get_option (some argsC3) .output "c" 0 (some "v") (some 0) = .ok (some (.vint 2)) ∧
    get_option (some argsC3) .output "c" 0 (some "v") none = .ok (some (.vint 1)) ∧
    get_option (some argsC3) .output "c" 0 none none = .ok (some (.vint 0)) :=
  ⟨fun _ _ _ _ => rfl, rfl, rfl, rfl⟩

/-! ### Claim C10: `get_option` cannot distinguish a stored `None` -/

/-- A binding with value `None` whose key is otherwise unbound is invisible
to `get_option`'s lookup loop. -/
theorem pop_lookup_rev_skip (k : String) (d : PyDict) (hk : lookupD d k = none) :
    ∀ l, pop_lookup_rev ((k, none) :: d) l = pop_lookup_rev d l := by
  intro l
  induction l with
  | nil => rfl
  | cons n rest ih =>
    simp only [pop_lookup_rev]
    have hg : dictGet ((k, none) :: d) n = dictGet d n := by
      by_cases h : k = n
      · subst h; simp [dictGet, lookupD, hk]
      · simp [dictGet, lookupD, h]
    rw [hg, ih]

/-- C10: `get_option` treats a key stored with value `None` as absent.
Prepending the most specific name bound to `None` to any option dict (in which
that name is otherwise unbound) leaves every `get_option` result unchanged —
the lookup falls through to the less specific names; and the `y` overwrite
flag, which `init_media_read` stores as `None`, is indistinguishable from an
unset option: both lookups return `None`. -/
theorem claim_C10_get_option_stored_none (d : PyDict) (name st : String) (sid : Nat)
    (habsent : lookupD d (name ++ ":" ++ st ++ ":" ++ natToDec sid) = none) :
    get_option (some ⟨[], [(none, some ((name ++ ":" ++ st ++ ":" ++ natToDec sid, none) :: d))], some []⟩)
        .output name 0 (some st) (some sid) =
      get_option (some ⟨[], [(none, some d)], some []⟩) .output name 0 (some st) (some sid) ∧
    get_option (some ⟨[], [], some [("y", (none : PyObj))]⟩) .global "y" 0 none none =
      .ok none ∧
    get_option (some ⟨[], [], some []⟩) .global "y" 0 none none = .ok none := by
  refine ⟨?_, rfl, rfl⟩
  show Except.ok (pop_lookup_rev ((name ++ ":" ++ st ++ ":" ++ natToDec sid, none) :: d)
        ([name, name ++ ":" ++ st, name ++ ":" ++ st ++ ":" ++ natToDec sid].reverse)) =
      Except.ok (pop_lookup_rev d
        ([name, name ++ ":" ++ st, name ++ ":" ++ st ++ ":" ++ natToDec sid].reverse))
  exact congrArg Except.ok (pop_lookup_rev_skip _ d habsent _)

/-- C10 witness: the stored-`None` theorem applied to the empty option dict
with name `c`, stream type `v`, stream id 0. -/
theorem claim_C10_witness :
    lookupD ([] : PyDict) ("c" ++ ":" ++ "v" ++ ":" ++ natToDec 0) = none ∧
    (get_option (some ⟨[], [(none, some [("c" ++ ":" ++ "v" ++ ":" ++ natToDec 0, none)])], some []⟩)
        .output "c" 0 (some "v") (some 0) =
      get_option (some ⟨[], [(none, some ([] : PyDict))], some []⟩) .output "c" 0 (some "v") (some 0) ∧
    get_option (some ⟨[], [], some [("y", (none : PyObj))]⟩) .global "y" 0 none none = .ok none ∧
    get_option (some ⟨[], [], some []⟩) .global "y" 0 none none = .ok none) :=
  ⟨rfl, claim_C10_get_option_stored_none [] "c" "v" 0 rfl⟩

/-! ### Claim C7: where the `n` option is rejected -/

/-- C7 counterexample: the claim says raw-media-write setup rejects a
pre-existing `n` output option, but `init_media_write` performs no such
check — called with one video input stream and options `{"n": 1}`, it
*succeeds*, returning a complete argument dict whose output options still
contain `n` (the `n` rejection lives in `init_media_read`, guarding outputs
to named pipes). -/
theorem claim_C7_counterexample :
    init_media_write mergeStub pipeStub (some "out.mp4") [[("r", some (.vint 30))]]
        (.flag false) none none none none [("n", some (.vint 1))] =
      .ok (⟨[(some "pipe0", some [("r", some (.vint 30))])],
            [(some "out.mp4", some [("n", some (.vint 1))])], some []⟩,
           ["pipe0"]) := rfl

/-- C7 amended: the `n`-option rejection happens in raw-media-*read* setup:
`init_media_read` raises the incompatible-option error ("Cannot have an n
option set to output to named pipes") whenever the options contain `n` and at
least one url is given, before any argument dict is produced, for every
continuation of the setup. -/
theorem claim_C7_amended_read_rejects_n {α β : Type}
    (rest : List α → Option (List String) → PyDict → Except String β)
    (urls : List α) (map : Option (List String)) (options : PyDict)
    (hne : urls ≠ []) (hn : hasKey options "n" = true) :
    init_media_read rest urls map options =
      .error "Cannot have an n option set to output to named pipes." := by
  unfold init_media_read
  rw [if_neg (by simpa using hne), hn]
  simp

/-- C7 witness: the amended theorem at a concrete read setup. -/
theorem claim_C7_amended_witness :
    ([()] ≠ ([] : List Unit)) ∧ hasKey [("n", (none : PyObj))] "n" = true ∧
    init_media_read (fun _ _ _ => (.ok 0 : Except String Nat)) [()] none [("n", none)] =
      .error "Cannot have an n option set to output to named pipes." :=
  ⟨by simp, rfl,
   claim_C7_amended_read_rejects_n (fun _ _ _ => (.ok 0 : Except String Nat)) [()] none
     [("n", none)] (by simp) rfl⟩

/-! ### Claim C8: probe failures never propagate -/

/-- C8: if the probe of an input source fails — the probe call cannot be
issued (`set_sp_kwargs_stdin` yields nothing) or `probe.streams_basic`
raises — `retrieve_input_stream_ids` returns an empty stream list together
with a logged warning; being a total function of the oracle outcomes, it
never propagates the failure to its caller. -/
theorem claim_C8_probe_failure_empty (spk : Option Unit)
    (probe : Except String (List (Nat × String)))
    (hfail : spk = none ∨ ∃ e, probe = .error e) :
    (retrieve_input_stream_ids spk probe).1 = [] ∧
    (retrieve_input_stream_ids spk probe).2 ≠ [] := by
  rcases hfail with h | ⟨e, h⟩
  · subst h; simp [retrieve_input_stream_ids]
  · subst h
    cases spk with
    | none => simp [retrieve_input_stream_ids]
    | some u => simp [retrieve_input_stream_ids]

/-- C8 witness: a raising probe yields the empty list and a warning. -/
theorem claim_C8_witness :
    ((some () : Option Unit) = none ∨
      ∃ e, (.error "ffprobe exploded" : Except String (List (Nat × String))) = .error e) ∧
    (retrieve_input_stream_ids (some ()) (.error "ffprobe exploded")).1 = [] ∧
    (retrieve_input_stream_ids (some ()) (.error "ffprobe exploded")).2 ≠ [] :=
  ⟨Or.inr ⟨"ffprobe exploded", rfl⟩,
   claim_C8_probe_failure_empty (some ()) (.error "ffprobe exploded")
     (Or.inr ⟨"ffprobe exploded", rfl⟩)⟩

/-! ### Claim C5: planar sample formats are rewritten; codec/format are a
function of the final sample format -/

/-- C5: whenever the resolved sample format of an audio output is planar
(`some (.vstr f)` with `f` ending in `"p"`), `finalize_audio_read_opts`
rewrites the output `sample_fmt` option to the interleaved equivalent
(`f` with the trailing character dropped) and logs a warning, and then sets
the output's `c:a` and `f` options to exactly
`get_audio_codec(final_sample_fmt)` — for every argument dict, probe oracle,
and codec table, so the pair depends on the final sample format alone. -/
theorem claim_C5_planar_sample_fmt (gac : String → String × String)
    (gaf : String → PyObj → String) (svu svf : Vals3) (args : FFmpegArgs) (ofile : Nat)
    (ourl : Option String) (o0 : PyDict) (m : String) (fields : MapFields)
    (ar ac : PyObj) (f : String) (w0 : List String)
    (hout : args.outputs.get? ofile = some (ourl, some o0))
    (hmap : dictGet o0 "map" = some (.vstr m))
    (hparse : parse_map_option m = some fields)
    (hres : resolve_audio_vals svu svf args fields o0 = .ok ((ar, some (.vstr f), ac), w0))
    (hne : f ≠ "") (hp : lastChar f.data = 'p') :
    finalize_audio_read_opts gac gaf svu svf args ofile =
      .ok (setFileList args .output (args.outputs.set ofile (ourl,
             some (dictSet (dictSet (dictSet o0 "sample_fmt" (some (.vstr (strDropRight f 1))))
                     "c:a" (some (.vstr (gac (strDropRight f 1)).1)))
                   "f" (some (.vstr (gac (strDropRight f 1)).2))))),
           (gaf (strDropRight f 1) ac, pyAndTuple1 ac, ar),
           w0 ++ ["planar sample format " ++ f ++ " is not supported for audio data IO. Changed to "
                   ++ strDropRight f 1 ++ "."]) := by
  simp only [finalize_audio_read_opts, hout, hmap, hparse, hres, Bind.bind, Except.bind,
    if_neg hne, if_pos hp]

/-- C5 witness: the planar-format theorem at the concrete output options
`{"map": "0:a:0", "ar": 8000, "sample_fmt": "s16p", "ac": 1}`. -/
theorem claim_C5_witness :
    argsC5.outputs.get? 0 = some (none, some oC5) ∧
    dictGet oC5 "map" = some (.vstr "0:a:0") ∧
    parse_map_option "0:a:0" = some (.stream 0 (some "a:0")) ∧
    resolve_audio_vals (none, none, none) (none, none, none) argsC5 (.stream 0 (some "a:0")) oC5 =
      .ok ((some (.vint 8000), some (.vstr "s16p"), some (.vint 1)), []) ∧
    ("s16p" ≠ "") ∧ lastChar "s16p".data = 'p' ∧
    finalize_audio_read_opts gacC5 gafC5 (none, none, none) (none, none, none) argsC5 0 =
      .ok (setFileList argsC5 .output (argsC5.outputs.set 0 (none,
             some (dictSet (dictSet (dictSet oC5 "sample_fmt" (some (.vstr (strDropRight "s16p" 1))))
                     "c:a" (some (.vstr (gacC5 (strDropRight "s16p" 1)).1)))
                   "f" (some (.vstr (gacC5 (strDropRight "s16p" 1)).2))))),
           (gafC5 (strDropRight "s16p" 1) (some (.vint 1)), pyAndTuple1 (some (.vint 1)),
            some (.vint 8000)),
           [] ++ ["planar sample format " ++ "s16p" ++ " is not supported for audio data IO. Changed to "
                   ++ strDropRight "s16p" 1 ++ "."]) :=
  ⟨rfl, rfl, rfl, rfl, by decide, rfl,
   claim_C5_planar_sample_fmt gacC5 gafC5 (none, none, none) (none, none, none) argsC5 0
     none oC5 "0:a:0" (.stream 0 (some "a:0")) (some (.vint 8000)) (some (.vint 1)) "s16p" []
     rfl rfl rfl rfl (by decide) rfl⟩

/-! ### Claim C4: alpha removal and the user-supplied `fill_color` -/

/-- C4: evaluation at the failing input.  With output `pix_fmt="rgb24"`
mapped to an input `pix_fmt="rgba"` stream and a user-supplied
`fill_color="red"`, `finalize_video_read_opts` *does* append exactly one
alpha-removal node — but the node's fill color is `"white"`, not the
supplied `"red"`: the function pops `fill_color` from the output options
before its first `build_basic_vf` pass (because no `remove_alpha` option is
present) and never passes the saved value on, so the second pass falls back to
the default and even logs the "fill_color option not specified" warning
although the user specified it.  The claim's fill-color clause is therefore
false on the code while the spec states the user's value is used. -/
theorem claim_C4_fill_color_discarded :
    finalize_video_read_opts [] [] argsC4 0 =
      .ok (⟨[(some "in.mp4",
              some [("r", some (.vint 30)), ("pix_fmt", some (.vstr "rgba")),
                    ("s", some (.vpair 320 240))])],
            [(none,
              some [("map", some (.vstr "0:v:0")), ("pix_fmt", some (.vstr "rgb24")),
                    ("vf", some (.vchain [VFNode.removeAlpha (some (.vstr "white"))])),
                    ("f", some (.vstr "rawvideo"))])],
            some []⟩,
           (some "|u1", some (.vint 240, .vint 320, some 3), some (.vint 30)),
           ["fill_color option not specified, uses white background color by default."]) := rfl

/-! ### Claim C2: auto-mapping every stream of every input -/

theorem mkKey_data (i : Nat) (mt : MT) (j : Nat) :
    (mkKey i mt j).data =
      (natToDec i).data ++ ':' :: ((mtLetter mt).data ++ ':' :: (natToDec j).data) := by
  have hc : (":" : String).data = [':'] := rfl
  simp [mkKey, String.data_append, hc]

/-- Equation lemmas for `per_file_keys` and `countMT` (kernel-reducible). -/
@[simp] theorem per_file_keys_nil (i a v : Nat) : per_file_keys i a v [] = [] := rfl

@[simp] theorem per_file_keys_cons_audio (i a v jj : Nat) (ss : List (Nat × MT)) :
    per_file_keys i a v ((jj, MT.audio) :: ss) =
      mkKey i .audio a :: per_file_keys i (a + 1) v ss := rfl

@[simp] theorem per_file_keys_cons_video (i a v jj : Nat) (ss : List (Nat × MT)) :
    per_file_keys i a v ((jj, MT.video) :: ss) =
      mkKey i .video v :: per_file_keys i a (v + 1) ss := rfl

theorem countMT_audio_cons_audio (jj : Nat) (ss : List (Nat × MT)) :
    countMT MT.audio ((jj, MT.audio) :: ss) = countMT MT.audio ss + 1 := rfl

theorem countMT_audio_cons_video (jj : Nat) (ss : List (Nat × MT)) :
    countMT MT.audio ((jj, MT.video) :: ss) = countMT MT.audio ss := rfl

theorem countMT_video_cons_audio (jj : Nat) (ss : List (Nat × MT)) :
    countMT MT.video ((jj, MT.audio) :: ss) = countMT MT.video ss := rfl

theorem countMT_video_cons_video (jj : Nat) (ss : List (Nat × MT)) :
    countMT MT.video ((jj, MT.video) :: ss) = countMT MT.video ss + 1 := rfl

theorem mkKey_inj {i i' j j' : Nat} {mt mt' : MT} (h : mkKey i mt j = mkKey i' mt' j') :
    i = i' ∧ mt = mt' ∧ j = j' := by
  have hd := congrArg String.data h
  rw [mkKey_data, mkKey_data] at hd
  obtain ⟨h1, h2⟩ := colon_split _ _ _ _ (natToDec_digits i) (natToDec_digits i') hd
  have hi : i = i' := by
    have ha := decVal_natToDec i
    have hb := decVal_natToDec i'
    rw [h1] at ha
    omega
  refine ⟨hi, ?_⟩
  have hj : ∀ (a b : Nat), (natToDec a).data = (natToDec b).data → a = b := by
    intro a b hab
    have ha := decVal_natToDec a
    have hb := decVal_natToDec b
    rw [hab] at ha
    omega
  cases mt with
  | audio =>
    cases mt' with
    | audio =>
      simp only [mtLetter, List.singleton_append, List.cons.injEq] at h2
      exact ⟨rfl, hj _ _ h2.2.2⟩
    | video =>
      simp only [mtLetter, List.singleton_append, List.cons.injEq] at h2
      exact absurd h2.1 (by decide)
  | video =>
    cases mt' with
    | audio =>
      simp only [mtLetter, List.singleton_append, List.cons.injEq] at h2
      exact absurd h2.1 (by decide)
    | video =>
      simp only [mtLetter, List.singleton_append, List.cons.injEq] at h2
      exact ⟨rfl, hj _ _ h2.2.2⟩

theorem auto_map_file_run (i : Nat) : ∀ (s : List (Nat × MT)) (a v : Nat),
    ((auto_map_file ⟨some i, a, v⟩ i s).1.map Prod.fst = per_file_keys i a v s) ∧
    ((auto_map_file ⟨some i, a, v⟩ i s).1.length = s.length) ∧
    ((auto_map_file ⟨some i, a, v⟩ i s).2 =
      ⟨some i, a + countMT .audio s, v + countMT .video s⟩) := by
  intro s
  induction s with
  | nil => intro a v; simp [auto_map_file, countMT]
  | cons p ss ih =>
    intro a v
    obtain ⟨j, mt⟩ := p
    cases mt with
    | audio =>
      have hn : next_map_option ⟨some i, a, v⟩ i .audio = (mkKey i .audio a, ⟨some i, a + 1, v⟩) := by
        simp [next_map_option]
      have ih' := ih (a + 1) v
      simp only [auto_map_file, hn]
      rcases hE : auto_map_file ⟨some i, a + 1, v⟩ i ss with ⟨ps, c''⟩
      rw [hE] at ih'
      simp only at ih'
      refine ⟨?_, ?_, ?_⟩
      · simp [ih'.1]
      · simp [ih'.2.1]
      · rw [ih'.2.2, countMT_audio_cons_audio, countMT_video_cons_audio]
        have hA : a + (countMT MT.audio ss + 1) = a + 1 + countMT MT.audio ss := by omega
        rw [hA]
    | video =>
      have hn : next_map_option ⟨some i, a, v⟩ i .video = (mkKey i .video v, ⟨some i, a, v + 1⟩) := by
        simp [next_map_option]
      have ih' := ih a (v + 1)
      simp only [auto_map_file, hn]
      rcases hE : auto_map_file ⟨some i, a, v + 1⟩ i ss with ⟨ps, c''⟩
      rw [hE] at ih'
      simp only at ih'
      refine ⟨?_, ?_, ?_⟩
      · simp [ih'.1]
      · simp [ih'.2.1]
      · rw [ih'.2.2, countMT_audio_cons_video, countMT_video_cons_video]
        have hV : v + (countMT MT.video ss + 1) = v + 1 + countMT MT.video ss := by omega
        rw [hV]

theorem auto_map_file_fresh (c : MapCounter) (i : Nat) (p : Nat × MT) (ss : List (Nat × MT))
    (h : c.file ≠ some i) :
    auto_map_file c i (p :: ss) = auto_map_file ⟨some i, 0, 0⟩ i (p :: ss) := by
  obtain ⟨j, mt⟩ := p
  have hn : next_map_option c i mt = next_map_option ⟨some i, 0, 0⟩ i mt := by
    simp [next_map_option, h]
  simp only [auto_map_file, hn]

theorem auto_map_inputs_run : ∀ (ss : List (List (Nat × MT))) (k : Nat) (c : MapCounter),
    (∀ j, c.file = some j → j < k) →
    ((auto_map_inputs c k ss).map Prod.fst = auto_map_keys_spec k ss ∧
     (auto_map_inputs c k ss).length = (ss.map List.length).sum) := by
  intro ss
  induction ss with
  | nil => intro k c _; simp [auto_map_inputs, auto_map_keys_spec]
  | cons s rest ih =>
    intro k c hc
    cases s with
    | nil =>
      have h0 : auto_map_file c k [] = ([], c) := rfl
      have hrec := ih (k + 1) c (fun j hj => Nat.lt_succ_of_lt (hc j hj))
      simp only [auto_map_inputs, h0]
      simp [auto_map_keys_spec, per_file_keys, hrec.1, hrec.2]
    | cons p ss' =>
      have hfile : c.file ≠ some k := fun hck => absurd (hc k hck) (lt_irrefl k)
      have hrun := auto_map_file_run k (p :: ss') 0 0
      simp only [auto_map_inputs, auto_map_file_fresh c k p ss' hfile]
      rcases hE : auto_map_file ⟨some k, 0, 0⟩ k (p :: ss') with ⟨ps, c'⟩
      rw [hE] at hrun
      simp only at hrun
      have hc' : ∀ j, c'.file = some j → j < k + 1 := by
        intro j hj
        rw [hrun.2.2] at hj
        have hkj : (some k : Option Nat) = some j := hj
        have := Option.some.inj hkj
        omega
      have hrec := ih (k + 1) c' hc'
      refine ⟨?_, ?_⟩
      · simp [auto_map_keys_spec, hrun.1, hrec.1]
      · simp [hrun.2.1, hrec.2]

theorem per_file_keys_mem (i : Nat) : ∀ (s : List (Nat × MT)) (a v : Nat) (key : String),
    key ∈ per_file_keys i a v s →
    ∃ mt j, key = mkKey i mt j ∧ (mt = MT.audio → a ≤ j) ∧ (mt = MT.video → v ≤ j) := by
  intro s
  induction s with
  | nil => intro a v key h; simp [per_file_keys] at h
  | cons p ss ih =>
    intro a v key h
    obtain ⟨jj, mt⟩ := p
    cases mt with
    | audio =>
      rcases (by simpa [per_file_keys] using h : key = mkKey i .audio a ∨ key ∈ per_file_keys i (a + 1) v ss) with h' | h'
      · exact ⟨.audio, a, h', fun _ => le_refl a, fun hmt => by simp at hmt⟩
      · obtain ⟨mt', j', hk, ha, hv⟩ := ih (a + 1) v key h'
        exact ⟨mt', j', hk, fun hmt => le_trans (Nat.le_succ a) (ha hmt), hv⟩
    | video =>
      rcases (by simpa [per_file_keys] using h : key = mkKey i .video v ∨ key ∈ per_file_keys i a (v + 1) ss) with h' | h'
      · exact ⟨.video, v, h', fun hmt => by simp at hmt, fun _ => le_refl v⟩
      · obtain ⟨mt', j', hk, ha, hv⟩ := ih a (v + 1) key h'
        exact ⟨mt', j', hk, ha, fun hmt => le_trans (Nat.le_succ v) (hv hmt)⟩

theorem per_file_keys_nodup (i : Nat) : ∀ (s : List (Nat × MT)) (a v : Nat),
    (per_file_keys i a v s).Nodup := by
  intro s
  induction s with
  | nil => intro a v; simp [per_file_keys]
  | cons p ss ih =>
    intro a v
    obtain ⟨jj, mt⟩ := p
    cases mt with
    | audio =>
      simp only [per_file_keys, List.nodup_cons]
      refine ⟨?_, ih (a + 1) v⟩
      intro hmem
      obtain ⟨mt', j', hk, ha, _⟩ := per_file_keys_mem i ss (a + 1) v _ hmem
      obtain ⟨_, hmt, hj⟩ := mkKey_inj hk
      subst hmt
      have := ha rfl
      omega
    | video =>
      simp only [per_file_keys, List.nodup_cons]
      refine ⟨?_, ih a (v + 1)⟩
      intro hmem
      obtain ⟨mt', j', hk, _, hv⟩ := per_file_keys_mem i ss a (v + 1) _ hmem
      obtain ⟨_, hmt, hj⟩ := mkKey_inj hk
      subst hmt
      have := hv rfl
      omega

theorem auto_map_keys_spec_mem : ∀ (ss : List (List (Nat × MT))) (k : Nat) (key : String),
    key ∈ auto_map_keys_spec k ss → ∃ i mt j, key = mkKey i mt j ∧ k ≤ i := by
  intro ss
  induction ss with
  | nil => intro k key h; simp [auto_map_keys_spec] at h
  | cons s rest ih =>
    intro k key h
    rcases (by simpa [auto_map_keys_spec] using h :
        key ∈ per_file_keys k 0 0 s ∨ key ∈ auto_map_keys_spec (k + 1) rest) with h' | h'
    · obtain ⟨mt, j, hk, _, _⟩ := per_file_keys_mem k s 0 0 key h'
      exact ⟨k, mt, j, hk, le_refl k⟩
    · obtain ⟨i, mt, j, hk, hik⟩ := ih (k + 1) key h'
      exact ⟨i, mt, j, hk, by omega⟩

theorem auto_map_keys_spec_nodup : ∀ (ss : List (List (Nat × MT))) (k : Nat),
    (auto_map_keys_spec k ss).Nodup := by
  intro ss
  induction ss with
  | nil => intro k; simp [auto_map_keys_spec]
  | cons s rest ih =>
    intro k
    simp only [auto_map_keys_spec]
    rw [List.nodup_append]
    refine ⟨per_file_keys_nodup k s 0 0, ih (k + 1), ?_⟩
    intro key hkey hkey'
    obtain ⟨mt, j, hk, _, _⟩ := per_file_keys_mem k s 0 0 key hkey
    obtain ⟨i', mt', j', hk', hik⟩ := auto_map_keys_spec_mem rest (k + 1) key hkey'
    rw [hk] at hk'
    obtain ⟨hi, _, _⟩ := mkKey_inj hk'
    omega

theorem per_file_keys_length (i : Nat) : ∀ (s : List (Nat × MT)) (a v : Nat),
    (per_file_keys i a v s).length = s.length := by
  intro s
  induction s with
  | nil => intro a v; simp [per_file_keys]
  | cons p ss ih =>
    intro a v
    obtain ⟨jj, mt⟩ := p
    cases mt <;> simp [per_file_keys, ih]

theorem countMT_total (s : List (Nat × MT)) :
    countMT .audio s + countMT .video s = s.length := by
  induction s with
  | nil => rfl
  | cons p ss ih =>
    obtain ⟨jj, mt⟩ := p
    cases mt with
    | audio =>
      rw [countMT_audio_cons_audio, countMT_video_cons_audio, List.length_cons]
      omega
    | video =>
      rw [countMT_audio_cons_video, countMT_video_cons_video, List.length_cons]
      omega

theorem dictSet_append {β : Type} (k : String) (v : β) :
    ∀ (acc : List (String × β)), lookupD acc k = none → dictSet acc k v = acc ++ [(k, v)] := by
  intro acc
  induction acc with
  | nil => intro _; rfl
  | cons e rest ih =>
    intro h
    obtain ⟨k0, v0⟩ := e
    by_cases hk : k0 = k
    · subst hk; simp [lookupD] at h
    · simp only [lookupD, if_neg hk] at h
      simp [dictSet, hk, ih h]

theorem lookupD_eq_none {β : Type} (k : String) :
    ∀ (d : List (String × β)), k ∉ d.map Prod.fst → lookupD d k = none := by
  intro d
  induction d with
  | nil => intro _; rfl
  | cons e rest ih =>
    intro h
    obtain ⟨k0, v0⟩ := e
    simp only [List.map_cons, List.mem_cons, not_or] at h
    simp only [lookupD, if_neg (fun he : k0 = k => h.1 he.symm)]
    exact ih h.2

theorem dictFromPairs_of_nodup {β : Type} :
    ∀ (rest acc : List (String × β)), ((acc ++ rest).map Prod.fst).Nodup →
    dictFromPairs' acc rest = acc ++ rest := by
  intro rest
  induction rest with
  | nil => intro acc _; simp [dictFromPairs']
  | cons e rest ih =>
    intro acc h
    obtain ⟨k, v⟩ := e
    have hk : k ∉ acc.map Prod.fst := by
      simp only [List.map_append, List.map_cons] at h
      have := (List.nodup_append.mp h).2.2
      intro hmem
      exact this hmem (by simp)
    have hset := dictSet_append k v acc (lookupD_eq_none k acc hk)
    simp only [dictFromPairs', hset]
    have h' : (((acc ++ [(k, v)]) ++ rest).map Prod.fst).Nodup := by
      simpa [List.append_assoc] using h
    rw [ih (acc ++ [(k, v)]) h']
    simp

theorem sum_lengths_const : ∀ (l : List (List (Nat × MT))) (c : Nat),
    (∀ s ∈ l, s.length = c) → (l.map List.length).sum = l.length * c := by
  intro l
  induction l with
  | nil => simp
  | cons s rest ih =>
    intro c h
    have hs := h s (by simp)
    have hr := ih c fun s' hs' => h s' (by simp [hs'])
    simp only [List.map_cons, List.sum_cons, List.length_cons, hs, hr]
    ring

/-- C2: with no `filter_complex` global option, `auto_map` on `N` inputs
whose probes report `V` video and `A` audio streams each leaves the argument
dict unchanged and returns a stream map whose key sequence is exactly the
per-file `i:x:j` numbering with per-type counters restarting at every file
(`auto_map_keys_spec`), with exactly `N*(V+A)` pairwise-distinct keys; and on
one input with streams `[(0,video),(1,audio),(2,video),(3,audio)]` it returns
exactly the keys `0:v:0, 0:a:0, 0:v:1, 0:a:1` bound to stream indices
`0, 1, 2, 3` respectively. -/
theorem claim_C2_auto_map (args : FFmpegArgs) (spk : Nat → Option Unit)
    (probe : Nat → Except String (List (Nat × String))) (N V A : Nat)
    (hN : args.inputs.length = N)
    (hg : hasKey (args.global_options.getD []) "filter_complex" = false)
    (hstreams : ∀ i, i < N →
      countMT .video ((retrieve_input_stream_ids (spk i) (probe i)).1) = V ∧
      countMT .audio ((retrieve_input_stream_ids (spk i) (probe i)).1) = A) :
    (∃ m, auto_map args spk probe = .ok (args, m) ∧
       m.map Prod.fst = auto_map_keys_spec 0
         ((List.range N).map fun i => (retrieve_input_stream_ids (spk i) (probe i)).1) ∧
       m.length = N * (V + A) ∧
       (m.map Prod.fst).Nodup) ∧
    auto_map argsC2 (fun _ => some ()) probeC2 =
      .ok (argsC2,
        [("0:v:0", ⟨"pipe", none, some .video, some 0, some 0⟩),
         ("0:a:0", ⟨"pipe", none, some .audio, some 0, some 1⟩),
         ("0:v:1", ⟨"pipe", none, some .video, some 0, some 2⟩),
         ("0:a:1", ⟨"pipe", none, some .audio, some 0, some 3⟩)]) := by
  refine ⟨?_, rfl⟩
  have hrun := auto_map_inputs_run
    ((List.range N).map fun i => (retrieve_input_stream_ids (spk i) (probe i)).1) 0
    ⟨none, 0, 0⟩ (fun j hj => by simp at hj)
  have hkeys := hrun.1
  have hnodup : ((auto_map_inputs ⟨none, 0, 0⟩ 0
      ((List.range N).map fun i => (retrieve_input_stream_ids (spk i) (probe i)).1)).map
        Prod.fst).Nodup := by
    rw [hkeys]
    exact auto_map_keys_spec_nodup _ 0
  have hdict : dictFromPairs (auto_map_inputs ⟨none, 0, 0⟩ 0
      ((List.range N).map fun i => (retrieve_input_stream_ids (spk i) (probe i)).1)) =
      auto_map_inputs ⟨none, 0, 0⟩ 0
        ((List.range N).map fun i => (retrieve_input_stream_ids (spk i) (probe i)).1) := by
    unfold dictFromPairs
    rw [dictFromPairs_of_nodup _ [] (by simpa using hnodup)]
    simp
  have hmem : ∀ s ∈ (List.range N).map fun i => (retrieve_input_stream_ids (spk i) (probe i)).1,
      s.length = V + A := by
    intro s hs
    obtain ⟨i, hi, rfl⟩ := List.mem_map.mp hs
    have h1 := hstreams i (List.mem_range.mp hi)
    have h2 := countMT_total ((retrieve_input_stream_ids (spk i) (probe i)).1)
    omega
  have hlen : (auto_map_inputs ⟨none, 0, 0⟩ 0
      ((List.range N).map fun i => (retrieve_input_stream_ids (spk i) (probe i)).1)).length =
      N * (V + A) := by
    rw [hrun.2, sum_lengths_const _ (V + A) hmem]
    simp
  refine ⟨auto_map_inputs ⟨none, 0, 0⟩ 0
      ((List.range N).map fun i => (retrieve_input_stream_ids (spk i) (probe i)).1),
    ?_, hkeys, hlen, hnodup⟩
  unfold auto_map
  rw [hN]
  simp only [hg, Bool.false_eq_true, if_false, hdict]

/-- C2 witness: the auto-map theorem at one input whose probe reports the
streams `[(0,video),(1,audio),(2,video),(3,audio)]` (`N = 1`, `V = A = 2`). -/
theorem claim_C2_witness :
    argsC2.inputs.length = 1 ∧
    hasKey (argsC2.global_options.getD []) "filter_complex" = false ∧
    (∀ i, i < 1 →
      countMT .video ((retrieve_input_stream_ids ((fun _ => some ()) i) (probeC2 i)).1) = 2 ∧
      countMT .audio ((retrieve_input_stream_ids ((fun _ => some ()) i) (probeC2 i)).1) = 2) ∧
    ((∃ m, auto_map argsC2 (fun _ => some ()) probeC2 = .ok (argsC2, m) ∧
       m.map Prod.fst = auto_map_keys_spec 0
         ((List.range 1).map fun i =>
           (retrieve_input_stream_ids ((fun _ => some ()) i) (probeC2 i)).1) ∧
       m.length = 1 * (2 + 2) ∧
       (m.map Prod.fst).Nodup) ∧
     auto_map argsC2 (fun _ => some ()) probeC2 =
      .ok (argsC2,
        [("0:v:0", ⟨"pipe", none, some .video, some 0, some 0⟩),
         ("0:a:0", ⟨"pipe", none, some .audio, some 0, some 1⟩),
         ("0:v:1", ⟨"pipe", none, some .video, some 0, some 2⟩),
         ("0:a:1", ⟨"pipe", none, some .audio, some 0, some 3⟩)])) :=
  ⟨rfl, rfl, fun i hi => by interval_cases i; exact ⟨rfl, rfl⟩,
   claim_C2_auto_map argsC2 (fun _ => some ()) probeC2 1 2 2 rfl rfl
     (fun i hi => by interval_cases i; exact ⟨rfl, rfl⟩)⟩

end FfmpegIO
